import Mathlib

/-
Verification of the dynamoDBWrapper item-access engine.

The module under study (dynamodbHelper.js, two historical snapshots of the
same file) exposes putItem, updateItem, deleteItem, getItem, query, scan and
setAWSRegion.  Each operation validates its declarative arguments, builds a
store-protocol request document, invokes the injected DynamoDB document
client, and maps the client's outcome to a resolved value or a rejection
object.  We embed the latest snapshot of each operation (and, where a claim
cites it, the earlier snapshot of putItem) as pure Lean functions.  The
external store client is a function parameter from request documents to
store outcomes; each operation also reports how many client invocations it
performed, so that the claims about performing zero store calls are
directly expressible.
-/

set_option autoImplicit false

namespace DDB

/-- Dynamically typed JavaScript values, as far as the wrapper inspects them:
strings, numbers, booleans, arrays and plain objects.  Only the presence of a
numeric length property and truthiness are ever consulted by the code. -/
inductive JVal where
  | str (s : String)
  | num (n : Int)
  | boolean (b : Bool)
  | arr (elems : List JVal)
  | obj (fields : List (String × JVal))

/-- The value of the JavaScript length property, when the value has one:
strings and arrays do, numbers, booleans and plain objects do not (their
length reads as undefined). -/
def jsLength : JVal → Option Nat
  | .str s => some s.length
  | .arr l => some l.length
  | _ => none

/-- The test x.length <= 0 as JavaScript evaluates it: true when the value
has a numeric length that is zero, and false when length is undefined
(undefined <= 0 is false). -/
def lengthLE0 (v : JVal) : Bool :=
  match jsLength v with
  | some n => n ≤ 0
  | none => false

/-- JavaScript falsiness for the values we model: the empty string, the
number 0 and false are falsy; arrays and objects are always truthy. -/
def isFalsy : JVal → Bool
  | .str s => s.isEmpty
  | .num n => n == 0
  | .boolean b => !b
  | _ => false

/-- One element of the updateParams array of the latest updateItem snapshot:
a fieldName (possibly undefined or null, modelled as none) and a
fieldValue. -/
structure UpdateField where
  fieldName : Option String
  fieldValue : JVal

/-- The error value the store client passes to an operation callback; only
its code property is inspected by the wrapper. -/
structure StoreErr where
  code : Option String

/-- Outcome of one store-client invocation: the callback receives either an
error or a response document. -/
inductive StoreOutcome (α : Type) where
  | err (e : StoreErr)
  | ok (data : α)

/-- The calledWith payload spread into every rejection object (the errorObj
of each operation), echoing the operation's original arguments. -/
inductive CallContext where
  | put (item : JVal) (tableName : JVal) (overwrite : Bool)
  | update (updateParams : List UpdateField) (tableName : JVal) (itemKey : JVal)
      (conditionExpression : String)
  | del (itemKey : JVal) (tableName : JVal) (deleteCondition : String)
      (deleteParameters : JVal)
  | get (itemKey : JVal) (tableName : JVal)
  | query (conditionExpression : String) (tableName : JVal)
      (expressionAttributeNames : JVal) (expressionAttributeValues : JVal)

/-- The DBError property attached to some rejection objects: either the
store error that was received, or a literal diagnostic string (the
InvalidData rejection of updateItem carries a string there). -/
inductive DBErrVal where
  | storeErr (e : StoreErr)
  | text (s : String)

/-- A rejection object as the operations construct them: a message, an
optional code property, an optional DBError property, and the optional
calledWith context.  Fields absent from a given source object are none. -/
structure RejectObj where
  msg : String
  code : Option String
  dbError : Option DBErrVal
  calledWith : Option CallContext

/-- How the promise returned by an operation settles: resolved with the
store response, or rejected with a rejection object.  Where the source calls
reject or resolve more than once (putItem does), only the first settlement
takes effect, per JavaScript promise semantics; the embedding returns that
first settlement. -/
inductive Settle (α : Type) where
  | resolved (data : α)
  | rejected (r : RejectObj)

/-- The code property of the rejection an operation settled with, if any. -/
def settleCode {α : Type} : Settle α → Option String
  | .rejected r => r.code
  | .resolved _ => none

/-- The calledWith property of the rejection an operation settled with. -/
def settleCalledWith {α : Type} : Settle α → Option CallContext
  | .rejected r => r.calledWith
  | .resolved _ => none

/-- JavaScript object property assignment m[k] = v on a string-keyed object:
an existing key is overwritten in place, a new key is appended. -/
def objSet : List (String × JVal) → String → JVal → List (String × JVal)
  | [], k, v => [(k, v)]
  | p :: rest, k, v => if p.1 = k then (k, v) :: rest else p :: objSet rest k v

/-- Property lookup on a string-keyed object. -/
def lookupObj : List (String × JVal) → String → Option JVal
  | [], _ => none
  | p :: rest, k => if p.1 = k then some p.2 else lookupObj rest k

/-- The keys of a string-keyed object, in property order. -/
def keysOf (m : List (String × JVal)) : List String :=
  m.map Prod.fst

/-- The clause a single loop iteration appends to the update expression:
the template string of the source, a space, the field name, the text
between name and placeholder, and the placeholder name. -/
def setClause (fieldName : String) : String :=
  " " ++ fieldName ++ " = :" ++ fieldName

/-- The update-expression building loop of the latest updateItem snapshot
(lines 346-363): iterates over updateParams with the for-in index (the
strings "0", "1", ..., so the comparison paramIndex !== "0" is an index
test against zero), prepends a comma except at index zero, rejects when a
fieldName is undefined or null, appends the set clause and assigns the
placeholder value.  The accumulator pair is the expression string and the
expressionAttributeValues object. -/
def buildUpdateLoop : List UpdateField → Nat → String → List (String × JVal) →
    Except Unit (String × List (String × JVal))
  | [], _, updateExpression, expressionAttributeValues =>
      .ok (updateExpression, expressionAttributeValues)
  | p :: rest, paramIndex, updateExpression, expressionAttributeValues =>
      let updateExpression :=
        if paramIndex ≠ 0 then updateExpression ++ "," else updateExpression
      match p.fieldName with
      | none => .error ()
      | some fieldName =>
          buildUpdateLoop rest (paramIndex + 1) (updateExpression ++ setClause fieldName)
            (objSet expressionAttributeValues (":" ++ fieldName) p.fieldValue)

/-- The update-expression builder inlined in the latest updateItem snapshot:
starts from the string set and an empty attribute-values object. -/
def buildUpdateExpression (updateParams : List UpdateField) :
    Except Unit (String × List (String × JVal)) :=
  buildUpdateLoop updateParams 0 "set" []

/-- The base condition the latest updateItem always starts from
(requireItemExistsExpression, line 334). -/
def requireItemExistsExpression : String := "attribute_exists(MachineID)"

/-- The condition string attached by the earlier putItem snapshots when
overwriting is not allowed (both earlier snapshots, lines 45-47). -/
def putCondition_v0 : String := "attribute_not_exists(MachineID)"

/-- The condition written by the latest putItem snapshot when overwriting is
not allowed.  The source line is
requestParams.ConditionExpression = "attribute_not_exists("!!")";
which is not valid JavaScript (a string literal juxtaposed with the token
!!); we embed the character sequence standing between the outermost quotes
of that line. -/
def putConditionLatest : String := "attribute_not_exists(\"!!\")"

/-- Request document for the store client's put operation. -/
structure PutRequest where
  TableName : String
  Item : JVal
  ConditionExpression : Option String

/-- Request document for the store client's update operation. -/
structure UpdateRequest where
  Key : JVal
  TableName : String
  ExpressionAttributeValues : List (String × JVal)
  UpdateExpression : String
  ConditionExpression : String

/-- Request document for the store client's delete operation. -/
structure DeleteRequest where
  Key : JVal
  TableName : String
  ConditionExpression : String
  ExpressionAttributeValues : JVal

/-- Request document for the store client's get operation. -/
structure GetRequest where
  Key : JVal
  TableName : String

/-- Request document for the store client's query operation. -/
structure QueryRequest where
  TableName : String
  KeyConditionExpression : String
  ExpressionAttributeNames : JVal
  ExpressionAttributeValues : JVal
  IndexName : Option String

/-- Response document of the store client's get operation: the Item
property is absent when no item with the requested key exists. -/
structure GetResponse where
  Item : Option JVal

/-- Validation and request building of the latest putItem snapshot
(lines 268-285): straight-line prefix of the operation, factored out so
that theorems can speak about the request document it produces. -/
def putItemRequest (item : JVal) (tableName : String) (overwrite : Bool) :
    Except RejectObj PutRequest :=
  let errorObj := some (CallContext.put item (JVal.str tableName) overwrite)
  if lengthLE0 item then .error ⟨"No item supplied", none, none, errorObj⟩
  else if tableName.length ≤ 0 then .error ⟨"No tableName supplied", none, none, errorObj⟩
  else .ok ⟨tableName, item, if !overwrite then some putConditionLatest else none⟩

/-- The latest putItem snapshot (lines 268-307).  In the error callback the
source rejects with ItemExists on a ConditionalCheckFailedException without
returning, then rejects with DBError and falls through to resolve; only the
first settlement takes effect, which the branches below return. -/
def putItem (item : JVal) (tableName : String) (overwrite : Bool)
    (client : PutRequest → StoreOutcome JVal) : Settle JVal × Nat :=
  let errorObj := some (CallContext.put item (JVal.str tableName) overwrite)
  match putItemRequest item tableName overwrite with
  | .error r => (.rejected r, 0)
  | .ok req =>
      match client req with
      | .err e =>
          if e.code = some "ConditionalCheckFailedException" then
            (.rejected ⟨"Item with that key already exists", some "ItemExists", none, errorObj⟩, 1)
          else
            (.rejected ⟨"Put failed on dynamoDB", some "DBError", some (.storeErr e), errorObj⟩, 1)
      | .ok res => (.resolved res, 1)

/-- Validation and request building of the earlier putItem snapshots
(lines 30-47 of each): identical to the latest except for the condition
string attribute_not_exists(MachineID). -/
def putItemRequest_v0 (item : JVal) (tableName : String) (overwrite : Bool) :
    Except RejectObj PutRequest :=
  let errorObj := some (CallContext.put item (JVal.str tableName) overwrite)
  if lengthLE0 item then .error ⟨"No item supplied", none, none, errorObj⟩
  else if tableName.length ≤ 0 then .error ⟨"No tableName supplied", none, none, errorObj⟩
  else .ok ⟨tableName, item, if !overwrite then some putCondition_v0 else none⟩

/-- The earlier putItem snapshots (lines 30-69 of each), with the same
callback classification as the latest. -/
def putItem_v0 (item : JVal) (tableName : String) (overwrite : Bool)
    (client : PutRequest → StoreOutcome JVal) : Settle JVal × Nat :=
  let errorObj := some (CallContext.put item (JVal.str tableName) overwrite)
  match putItemRequest_v0 item tableName overwrite with
  | .error r => (.rejected r, 0)
  | .ok req =>
      match client req with
      | .err e =>
          if e.code = some "ConditionalCheckFailedException" then
            (.rejected ⟨"Item with that key already exists", some "ItemExists", none, errorObj⟩, 1)
          else
            (.rejected ⟨"Put failed on dynamoDB", some "DBError", some (.storeErr e), errorObj⟩, 1)
      | .ok res => (.resolved res, 1)

/-- Validation, expression building and request building of the latest
updateItem snapshot (lines 322-383).  The guard !itemKey || itemKey.length
is the source's falsy-or-empty test; updateParams is a JavaScript array and
hence always truthy, so its guard reduces to the length test, and for the
string tableName the falsy test coincides with the length test.  A
condition expression of positive length is appended to the base existence
predicate with a comma and space, exactly as the source concatenates. -/
def updateItemRequest (itemKey : JVal) (tableName : String)
    (updateParams : List UpdateField) (conditionExpression : String) :
    Except RejectObj UpdateRequest :=
  let errorObj := some (CallContext.update updateParams (JVal.str tableName) itemKey
    conditionExpression)
  if isFalsy itemKey || lengthLE0 itemKey then
    .error ⟨"no Item Key supplied", none, none, errorObj⟩
  else if updateParams.length ≤ 0 then
    .error ⟨"No updateParams supplied", none, none, errorObj⟩
  else if tableName.length ≤ 0 then
    .error ⟨"No tableName supplied", none, none, errorObj⟩
  else
    match buildUpdateExpression updateParams with
    | .error _ =>
        .error ⟨"Update failed on dynamoDB", some "InvalidData",
          some (.text "Passed parameters where undefined"), errorObj⟩
    | .ok (updateExpression, expressionAttributeValues) =>
        let conditionExpressionBuilder :=
          if 0 < conditionExpression.length then
            requireItemExistsExpression ++ ", " ++ conditionExpression
          else requireItemExistsExpression
        .ok ⟨itemKey, tableName, expressionAttributeValues, updateExpression,
          conditionExpressionBuilder⟩

/-- The latest updateItem snapshot (lines 322-410), including the refined
classification of a ConditionalCheckFailedException store error. -/
def updateItem (itemKey : JVal) (tableName : String)
    (updateParams : List UpdateField) (conditionExpression : String)
    (client : UpdateRequest → StoreOutcome JVal) : Settle JVal × Nat :=
  let errorObj := some (CallContext.update updateParams (JVal.str tableName) itemKey
    conditionExpression)
  match updateItemRequest itemKey tableName updateParams conditionExpression with
  | .error r => (.rejected r, 0)
  | .ok req =>
      match client req with
      | .err e =>
          if e.code = some "ConditionalCheckFailedException" then
            (.rejected ⟨"Conditional Check Failed, Item possibly does not exist? Failed Condition Expression: "
                ++ req.ConditionExpression,
              some "DBError.ConditionalCheckFailedException", some (.storeErr e), errorObj⟩, 1)
          else
            (.rejected ⟨"Update failed on dynamoDB", some "DBError", some (.storeErr e), errorObj⟩, 1)
      | .ok data => (.resolved data, 1)

/-- Validation and request building of the latest deleteItem snapshot
(lines 423-441).  The source repeats the message of the third validation
for the fourth. -/
def deleteItemRequest (itemKey : JVal) (tableName : String)
    (deleteCondition : String) (deleteParameters : JVal) :
    Except RejectObj DeleteRequest :=
  let errorObj := some (CallContext.del itemKey (JVal.str tableName) deleteCondition
    deleteParameters)
  if lengthLE0 itemKey then .error ⟨"no Item Key supplied", none, none, errorObj⟩
  else if tableName.length ≤ 0 then .error ⟨"No tableName supplied", none, none, errorObj⟩
  else if deleteCondition.length ≤ 0 then
    .error ⟨"No delete condition supplied", none, none, errorObj⟩
  else if lengthLE0 deleteParameters then
    .error ⟨"No delete condition supplied", none, none, errorObj⟩
  else .ok ⟨itemKey, tableName, deleteCondition, deleteParameters⟩

/-- The latest deleteItem snapshot (lines 423-457): every store failure is
classified DBError. -/
def deleteItem (itemKey : JVal) (tableName : String) (deleteCondition : String)
    (deleteParameters : JVal) (client : DeleteRequest → StoreOutcome JVal) :
    Settle JVal × Nat :=
  let errorObj := some (CallContext.del itemKey (JVal.str tableName) deleteCondition
    deleteParameters)
  match deleteItemRequest itemKey tableName deleteCondition deleteParameters with
  | .error r => (.rejected r, 0)
  | .ok req =>
      match client req with
      | .err e =>
          (.rejected ⟨"Delete failed on dynamoDB", some "DBError", some (.storeErr e), errorObj⟩, 1)
      | .ok data => (.resolved data, 1)

/-- Validation and request building of the latest getItem snapshot
(lines 467-480). -/
def getItemRequest (itemKey : JVal) (tableName : String) :
    Except RejectObj GetRequest :=
  let errorObj := some (CallContext.get itemKey (JVal.str tableName))
  if lengthLE0 itemKey then .error ⟨"no Item Key supplied", none, none, errorObj⟩
  else if tableName.length ≤ 0 then .error ⟨"No tableName supplied", none, none, errorObj⟩
  else .ok ⟨itemKey, tableName⟩

/-- The latest getItem snapshot (lines 467-496): a store success resolves
with the raw response document (whose Item property is absent when the key
has no item); a store error is classified DBError. -/
def getItem (itemKey : JVal) (tableName : String)
    (client : GetRequest → StoreOutcome GetResponse) : Settle GetResponse × Nat :=
  let errorObj := some (CallContext.get itemKey (JVal.str tableName))
  match getItemRequest itemKey tableName with
  | .error r => (.rejected r, 0)
  | .ok req =>
      match client req with
      | .err e =>
          (.rejected ⟨"Get failed on dynamoDB", some "DBError", some (.storeErr e), errorObj⟩, 1)
      | .ok data => (.resolved data, 1)

/-- Validation and request building of the latest query snapshot
(lines 519-538): the IndexName field is included only when the supplied
index name is non-empty. -/
def queryRequest (conditionExpression : String) (expressionAttributeNames : JVal)
    (expressionAttributeValues : JVal) (tableName : String) (indexName : String) :
    Except RejectObj QueryRequest :=
  let errorObj := some (CallContext.query conditionExpression (JVal.str tableName)
    expressionAttributeNames expressionAttributeValues)
  if conditionExpression.length ≤ 0 then
    .error ⟨"No conditionExpression supplied", none, none, errorObj⟩
  else if tableName.length ≤ 0 then .error ⟨"No tableName supplied", none, none, errorObj⟩
  else if lengthLE0 expressionAttributeNames then
    .error ⟨"No expressionAttributeNames supplied", none, none, errorObj⟩
  else if lengthLE0 expressionAttributeValues then
    .error ⟨"No expressionAttributeValues supplied", none, none, errorObj⟩
  else
    .ok ⟨tableName, conditionExpression, expressionAttributeNames,
      expressionAttributeValues,
      if 0 < indexName.length then some indexName else none⟩

/-- The latest query snapshot (lines 519-553): store failures are
classified DBError. -/
def queryOp (conditionExpression : String) (expressionAttributeNames : JVal)
    (expressionAttributeValues : JVal) (tableName : String) (indexName : String)
    (client : QueryRequest → StoreOutcome JVal) : Settle JVal × Nat :=
  let errorObj := some (CallContext.query conditionExpression (JVal.str tableName)
    expressionAttributeNames expressionAttributeValues)
  match queryRequest conditionExpression expressionAttributeNames
      expressionAttributeValues tableName indexName with
  | .error r => (.rejected r, 0)
  | .ok req =>
      match client req with
      | .err e =>
          (.rejected ⟨"Query failed on dynamoDB", some "DBError", some (.storeErr e), errorObj⟩, 1)
      | .ok data => (.resolved data, 1)

/-- The scan operation (lines 560-567): rejects immediately with an object
carrying only the message, and never touches the store client. -/
def scanOp : Settle JVal × Nat :=
  (.rejected ⟨"Not implemented", none, none, none⟩, 0)

/-- The region configured before any setter call. -/
def defaultRegion : String := "eu-west-1"

/-- Result of a setAWSRegion call: the region in effect afterwards and
whether the diagnostic branch ran. -/
structure RegionState where
  region : String
  diagnosticLogged : Bool

/-- The setAWSRegion snapshot (lines 573-582): when regionName.length >= 0
the configuration is updated to regionName, otherwise the previous region is
kept and the diagnostic is printed. -/
def setAWSRegion (current : String) (regionName : String) : RegionState :=
  if regionName.length ≥ 0 then ⟨regionName, false⟩
  else ⟨current, true⟩

/-- The attribute-values object produced by running the update-expression
loop over the fields, starting from the given object: each field with a
defined name assigns its placeholder.  This re-expresses the value
accumulation of buildUpdateLoop as a fold, for use in specifications. -/
def setAll (vals : List (String × JVal)) (params : List UpdateField) :
    List (String × JVal) :=
  params.foldl (fun m p =>
    match p.fieldName with
    | some n => objSet m (":" ++ n) p.fieldValue
    | none => m) vals

/-- The fieldValue of the last field in the list carrying the given
fieldName, if any: the value the spec says a later duplicate leaves in the
placeholder. -/
def lastAssign : List UpdateField → String → Option JVal
  | [], _ => none
  | p :: rest, name =>
    match lastAssign rest name with
    | some v => some v
    | none => if p.fieldName = some name then some p.fieldValue else none

/-- One clause of the spec's expression shape: name, equals sign, colon
placeholder of the same name. -/
def specClause (n : String) : String := n ++ " = :" ++ n

/-- Comma-separated concatenation with no trailing comma, as the spec
describes the clause list. -/
def commaSeparated : List String → String
  | [] => ""
  | [c] => c
  | c :: c2 :: cs => c ++ ", " ++ commaSeparated (c2 :: cs)

/-- The spec's shape for the whole update expression: the word set, a
space, then the clauses comma-separated in input order. -/
def specUpdateExpr (names : List String) : String :=
  "set " ++ commaSeparated (names.map specClause)

/-- Tail form of a comma-separated clause list: every element preceded by a
comma and space.  Auxiliary spelling used to relate the builder's
accumulator to commaSeparated. -/
def commaSep2 : List String → String
  | [] => ""
  | c :: cs => ", " ++ c ++ commaSep2 cs

/-- The text the builder's loop appends after the first iteration: for each
remaining name, a comma then the set clause. -/
def commaTail : List String → String
  | [] => ""
  | n :: ns => "," ++ setClause n ++ commaTail ns

/-- A store client that accepts every request; used to instantiate theorems
about paths that never reach the client. -/
def okPutClient : PutRequest → StoreOutcome JVal :=
  fun _ => .ok (JVal.obj [])

/-- A get client that reports success with no Item: the store's response
for a key that has no item. -/
def emptyGetClient : GetRequest → StoreOutcome GetResponse :=
  fun _ => .ok ⟨none⟩

/-- Model of the external store client's update endpoint when the addressed
key has no item: the request's condition expression always conjoins the
base predicate attribute_exists(MachineID) (theorem for claim C2), which
evaluates false on an absent key, so the store rejects every such
conditional update with a ConditionalCheckFailedException error, per the
spec's store semantics (a condition expression is evaluated atomically at
write time and a false condition fails the write). -/
def absentKeyClient : UpdateRequest → StoreOutcome JVal :=
  fun _ => .err ⟨some "ConditionalCheckFailedException"⟩

/-- A put client that rejects with the conditional-check-failed error code,
the store's response when the no-overwrite condition fails because the key
is already present. -/
def ccfPutClient : PutRequest → StoreOutcome JVal :=
  fun _ => .err ⟨some "ConditionalCheckFailedException"⟩

/-- Sample field list with a duplicated field name, used by witnesses. -/
def sampleFields : List UpdateField :=
  [⟨some "a", JVal.num 1⟩, ⟨some "b", JVal.num 2⟩, ⟨some "a", JVal.num 3⟩]

/-- Sample item keyed by MachineID, used by witnesses. -/
def sampleItem : JVal := JVal.obj [("MachineID", JVal.num 22)]

/-- Two strings with the same character data are equal. -/
theorem string_data_eq (a b : String) (h : a.data = b.data) : a = b := by
  cases a
  cases b
  exact congrArg String.mk h

/-- Character data of an append is the append of the character data. -/
theorem data_append (a b : String) : (a ++ b).data = a.data ++ b.data := rfl

/-- String append is associative. -/
theorem strAppendAssoc (a b c : String) : a ++ b ++ c = a ++ (b ++ c) := by
  apply string_data_eq
  simp only [data_append, List.append_assoc]

/-- Appending the empty string on the right is the identity. -/
theorem strAppendNil (a : String) : a ++ "" = a :=
  string_data_eq _ _ (List.append_nil _)

/-- String append cancels on the left. -/
theorem strAppendLeftCancel (s a b : String) (h : s ++ a = s ++ b) : a = b := by
  apply string_data_eq
  have h2 := congrArg String.data h
  rw [data_append, data_append] at h2
  exact (List.append_right_inj s.data).mp h2

/-- Prepending the placeholder colon is injective. -/
theorem colon_append_inj (a b : String) (h : (":" ++ a : String) = ":" ++ b) :
    a = b :=
  strAppendLeftCancel ":" a b h

/-- A comma followed by the loop's set clause is the spec's comma-space
separator followed by the spec clause. -/
theorem comma_setClause (n : String) :
    ("," : String) ++ setClause n = ", " ++ specClause n := by
  apply string_data_eq
  have h1 : (",".data : List Char) = [','] := rfl
  have h2 : ((" " : String).data : List Char) = [' '] := rfl
  have h3 : ((", " : String).data : List Char) = [',', ' '] := rfl
  simp only [setClause, specClause, data_append, h1, h2, h3, List.append_assoc,
    List.cons_append, List.nil_append]

/-- The word set followed by the loop's first clause is the spec's prefix
followed by the spec clause. -/
theorem set_setClause (n : String) :
    ("set" : String) ++ setClause n = "set " ++ specClause n := by
  apply string_data_eq
  have h1 : (("set" : String).data : List Char) = ['s', 'e', 't'] := rfl
  have h2 : ((" " : String).data : List Char) = [' '] := rfl
  have h3 : (("set " : String).data : List Char) = ['s', 'e', 't', ' '] := rfl
  simp only [setClause, specClause, data_append, h1, h2, h3, List.append_assoc,
    List.cons_append, List.nil_append]

/-- The loop's comma tail is the spec's comma-space tail over the spec
clauses. -/
theorem commaTail_eq (ns : List String) :
    commaTail ns = commaSep2 (ns.map specClause) := by
  induction ns with
  | nil => rfl
  | cons n ns ih =>
      rw [commaTail, List.map_cons, commaSep2, ih, comma_setClause]

/-- Comma-separated concatenation splits off its head. -/
theorem commaSeparated_cons (c : String) (cs : List String) :
    commaSeparated (c :: cs) = c ++ commaSep2 cs := by
  induction cs generalizing c with
  | nil => rw [commaSeparated, commaSep2, strAppendNil]
  | cons d ds ih =>
      rw [commaSeparated, commaSep2, ih, strAppendAssoc, strAppendAssoc]

/-- Characterization of the builder's loop after the first iteration: when
every field has a defined name, no rejection occurs, each clause arrives
with its comma, and the values object accumulates via setAll. -/
theorem buildUpdateLoop_pos (params : List UpdateField) (names : List String)
    (h : params.map UpdateField.fieldName = names.map some) (i : Nat)
    (hi : i ≠ 0) (e : String) (vals : List (String × JVal)) :
    buildUpdateLoop params i e vals = .ok (e ++ commaTail names, setAll vals params) := by
  induction params generalizing names i e vals with
  | nil =>
      cases names with
      | nil => rw [buildUpdateLoop, commaTail, strAppendNil, setAll, List.foldl_nil]
      | cons n ns => simp at h
  | cons p rest ih =>
      cases names with
      | nil => simp at h
      | cons n ns =>
          simp only [List.map_cons, List.cons.injEq] at h
          obtain ⟨h1, h2⟩ := h
          rw [buildUpdateLoop]
          simp only [hi, if_true, h1, setAll, List.foldl_cons]
          rw [ih ns h2 (i + 1) (Nat.succ_ne_zero i)]
          rw [commaTail, setAll]
          simp only [ne_eq, hi, not_false_eq_true, if_true, strAppendAssoc]

/-- Looking up the key just assigned returns the assigned value. -/
theorem lookupObj_objSet_self (m : List (String × JVal)) (k : String) (v : JVal) :
    lookupObj (objSet m k v) k = some v := by
  induction m with
  | nil => simp [objSet, lookupObj]
  | cons p rest ih =>
      by_cases hp : p.1 = k
      · simp [objSet, lookupObj, hp]
      · simp [objSet, lookupObj, hp, ih]

/-- Assignment leaves lookups of other keys unchanged. -/
theorem lookupObj_objSet_ne (m : List (String × JVal)) (k : String) (v : JVal)
    (k2 : String) (hk : k2 ≠ k) :
    lookupObj (objSet m k v) k2 = lookupObj m k2 := by
  induction m with
  | nil =>
      simp only [objSet, lookupObj]
      exact if_neg fun h => hk h.symm
  | cons p rest ih =>
      by_cases hp : p.1 = k
      · rw [objSet, if_pos hp, lookupObj, lookupObj]
        have hne : ¬ k = k2 := fun h => hk h.symm
        have hne2 : ¬ p.1 = k2 := by rw [hp]; exact hne
        rw [if_neg hne, if_neg hne2]
      · rw [objSet, if_neg hp, lookupObj, lookupObj, ih]

/-- The keys after an assignment: unchanged when the key was present,
otherwise the key is appended. -/
theorem keysOf_objSet (m : List (String × JVal)) (k : String) (v : JVal) :
    keysOf (objSet m k v) =
      if k ∈ keysOf m then keysOf m else keysOf m ++ [k] := by
  induction m with
  | nil => simp [objSet, keysOf]
  | cons p rest ih =>
      simp only [keysOf] at ih ⊢
      by_cases hp : p.1 = k
      · subst hp
        simp [objSet, List.map_cons, List.mem_cons]
      · have hk : ¬ k = p.1 := fun h => hp h.symm
        rw [objSet, if_neg hp]
        simp only [List.map_cons, List.mem_cons, hk, false_or]
        by_cases hm : k ∈ List.map Prod.fst rest
        · rw [if_pos hm, ih, if_pos hm]
        · rw [if_neg hm, ih, if_neg hm, List.cons_append]

/-- Assignment preserves distinctness of the keys. -/
theorem nodup_keys_objSet (m : List (String × JVal)) (k : String) (v : JVal)
    (h : (keysOf m).Nodup) : (keysOf (objSet m k v)).Nodup := by
  rw [keysOf_objSet]
  by_cases hm : k ∈ keysOf m
  · rw [if_pos hm]
    exact h
  · rw [if_neg hm]
    simp [List.nodup_append, h, hm]

/-- Running the whole field list preserves distinctness of the keys. -/
theorem nodup_keys_setAll (params : List UpdateField) :
    ∀ vals : List (String × JVal),
      (keysOf vals).Nodup → (keysOf (setAll vals params)).Nodup := by
  induction params with
  | nil => intro vals h; exact h
  | cons p rest ih =>
      intro vals h
      rw [setAll, List.foldl_cons]
      cases hp : p.fieldName with
      | none => simp only [hp]; exact ih vals h
      | some n =>
          simp only [hp]
          exact ih _ (nodup_keys_objSet vals _ _ h)

/-- Unfolding setAll one field at a time. -/
theorem setAll_cons (vals : List (String × JVal)) (p : UpdateField)
    (rest : List UpdateField) :
    setAll vals (p :: rest) =
      setAll (match p.fieldName with
        | some n => objSet vals (":" ++ n) p.fieldValue
        | none => vals) rest := by
  rw [setAll, setAll, List.foldl_cons]

/-- Lookup of a placeholder after running the whole field list: the last
assignment to that field name wins, and absent that, the original object
answers. -/
theorem lookupObj_setAll (params : List UpdateField) (name : String) :
    ∀ vals : List (String × JVal),
      lookupObj (setAll vals params) (":" ++ name) =
        (lastAssign params name).or (lookupObj vals (":" ++ name)) := by
  induction params with
  | nil => intro vals; rw [setAll, List.foldl_nil, lastAssign, Option.none_or]
  | cons p rest ih =>
      intro vals
      rw [setAll_cons, lastAssign]
      cases hp : p.fieldName with
      | none =>
          simp only [ih vals]
          cases hra : lastAssign rest name with
          | some v => rw [Option.or_some]
          | none =>
              have hnone : ¬ (none : Option String) = some name := by simp
              rw [Option.none_or]
              show lookupObj vals (":" ++ name) =
                ((if (none : Option String) = some name then some p.fieldValue
                  else none).or (lookupObj vals (":" ++ name)))
              rw [if_neg hnone, Option.none_or]
      | some nm =>
          simp only [ih (objSet vals (":" ++ nm) p.fieldValue)]
          cases hra : lastAssign rest name with
          | some v => rw [Option.or_some, Option.or_some]
          | none =>
              rw [Option.none_or]
              show lookupObj (objSet vals (":" ++ nm) p.fieldValue) (":" ++ name) =
                ((if (some nm : Option String) = some name then some p.fieldValue
                  else none).or (lookupObj vals (":" ++ name)))
              by_cases hnm : nm = name
              · subst hnm
                rw [lookupObj_objSet_self, if_pos rfl, Option.or_some]
              · have hkq : (":" ++ name : String) ≠ ":" ++ nm := fun hcol =>
                  hnm (colon_append_inj _ _ hcol).symm
                have hsome : ¬ (some nm : Option String) = some name := by
                  simp [hnm]
                rw [lookupObj_objSet_ne _ _ _ _ hkq, if_neg hsome, Option.none_or]

/-- When some field carries the name, the last assignment exists. -/
theorem lastAssign_isSome (params : List UpdateField) (name : String)
    (h : ∃ p ∈ params, p.fieldName = some name) :
    (lastAssign params name).isSome := by
  induction params with
  | nil => simp at h
  | cons p rest ih =>
      rw [lastAssign]
      cases hra : lastAssign rest name with
      | some v => rfl
      | none =>
          obtain ⟨q, hq, hqn⟩ := h
          rcases List.mem_cons.mp hq with hq1 | hq2
          · subst hq1
            rw [if_pos hqn]
            rfl
          · have := ih ⟨q, hq2, hqn⟩
            rw [hra] at this
            simp at this

/-- Every key present after running the field list over the empty object
comes from a field: it is the colon placeholder of some defined field
name. -/
theorem lookupObj_setAll_mem (params : List UpdateField) :
    ∀ (vals : List (String × JVal)) (k : String),
      (lookupObj (setAll vals params) k).isSome →
      (lookupObj vals k).isSome ∨
        ∃ p ∈ params, ∃ nm, p.fieldName = some nm ∧ k = ":" ++ nm := by
  induction params with
  | nil =>
      intro vals k h
      rw [setAll, List.foldl_nil] at h
      exact Or.inl h
  | cons p rest ih =>
      intro vals k h
      rw [setAll_cons] at h
      cases hp : p.fieldName with
      | none =>
          rw [hp] at h
          rcases ih vals k h with h1 | ⟨q, hq, nm, hqn, hk⟩
          · exact Or.inl h1
          · exact Or.inr ⟨q, List.mem_cons_of_mem p hq, nm, hqn, hk⟩
      | some nm =>
          rw [hp] at h
          rcases ih _ k h with h1 | ⟨q, hq, nm2, hqn, hk⟩
          · by_cases hk : k = ":" ++ nm
            · exact Or.inr ⟨p, List.mem_cons_self p rest, nm, hp, hk⟩
            · rw [lookupObj_objSet_ne _ _ _ _ hk] at h1
              exact Or.inl h1
          · exact Or.inr ⟨q, List.mem_cons_of_mem p hq, nm2, hqn, hk⟩

/-- A defined field name of a field in the list occurs among the names. -/
theorem mem_names_of_param (params : List UpdateField) (names : List String)
    (h : params.map UpdateField.fieldName = names.map some)
    (p : UpdateField) (hp : p ∈ params) (nm : String)
    (hnm : p.fieldName = some nm) : nm ∈ names := by
  have h1 : p.fieldName ∈ params.map UpdateField.fieldName :=
    List.mem_map_of_mem UpdateField.fieldName hp
  rw [h, hnm] at h1
  obtain ⟨n, hn, heq⟩ := List.mem_map.mp h1
  rwa [← Option.some_inj.mp heq]

/-- Every listed name is the defined field name of some field. -/
theorem exists_param_of_mem_names (params : List UpdateField)
    (names : List String)
    (h : params.map UpdateField.fieldName = names.map some)
    (n : String) (hn : n ∈ names) : ∃ p ∈ params, p.fieldName = some n := by
  have h1 : some n ∈ names.map some := List.mem_map_of_mem some hn
  rw [← h] at h1
  obtain ⟨p, hp, hpe⟩ := List.mem_map.mp h1
  exact ⟨p, hp, hpe⟩

/-- The builder's first iteration: index zero appends no comma. -/
theorem buildUpdateLoop_zero (p : UpdateField) (rest : List UpdateField)
    (n : String) (h1 : p.fieldName = some n) (e : String)
    (vals : List (String × JVal)) :
    buildUpdateLoop (p :: rest) 0 e vals =
      buildUpdateLoop rest 1 (e ++ setClause n)
        (objSet vals (":" ++ n) p.fieldValue) := by
  rw [buildUpdateLoop]
  simp [h1]

/-- C1: for every non-empty sequence of update fields in which every
element has a defined, non-null fieldName, the builder produces the
expression string set name1 = :name1, name2 = :name2, ... with exactly one
clause per field, comma-separated, in input order, with no trailing comma,
and an attribute-values object whose keys are distinct, are exactly the
colon placeholders of the field names, and map each placeholder to the
fieldValue of the last field with that fieldName (a later duplicate
overwrites the earlier placeholder value). -/
theorem claim_C1 (params : List UpdateField) (names : List String)
    (hne : params ≠ [])
    (hdef : params.map UpdateField.fieldName = names.map some) :
    buildUpdateExpression params = .ok (specUpdateExpr names, setAll [] params) ∧
    (keysOf (setAll [] params)).Nodup ∧
    (∀ k, (lookupObj (setAll [] params) k).isSome ↔ ∃ n ∈ names, k = ":" ++ n) ∧
    ∀ n, lookupObj (setAll [] params) (":" ++ n) = lastAssign params n := by
  refine ⟨?_, ?_, ?_, ?_⟩
  · cases params with
    | nil => exact absurd rfl hne
    | cons p rest =>
        cases names with
        | nil => simp at hdef
        | cons n ns =>
            simp only [List.map_cons, List.cons.injEq] at hdef
            obtain ⟨h1, h2⟩ := hdef
            rw [buildUpdateExpression, buildUpdateLoop_zero p rest n h1,
              buildUpdateLoop_pos rest ns h2 1 Nat.one_ne_zero]
            simp only [Except.ok.injEq, Prod.mk.injEq]
            constructor
            · rw [commaTail_eq, set_setClause, strAppendAssoc, specUpdateExpr,
                List.map_cons, commaSeparated_cons]
            · rw [setAll_cons]
              simp only [h1]
  · exact nodup_keys_setAll params [] (by simp [keysOf])
  · intro k
    constructor
    · intro hk
      rcases lookupObj_setAll_mem params [] k hk with h1 | ⟨p, hp, nm, hnm, hkk⟩
      · rw [lookupObj] at h1
        simp at h1
      · exact ⟨nm, mem_names_of_param params names hdef p hp nm hnm, hkk⟩
    · rintro ⟨n, hn, hkk⟩
      subst hkk
      obtain ⟨p, hp, hpn⟩ := exists_param_of_mem_names params names hdef n hn
      have hsome := lastAssign_isSome params n ⟨p, hp, hpn⟩
      rw [lookupObj_setAll params n []]
      simp only [lookupObj, Option.or_none]
      exact hsome
  · intro n
    rw [lookupObj_setAll params n []]
    simp only [lookupObj, Option.or_none]

/-- Witness for C1 at a concrete field list with a duplicate name. -/
theorem claim_C1_witness :
    sampleFields ≠ [] ∧
    sampleFields.map UpdateField.fieldName = ["a", "b", "a"].map some ∧
    (buildUpdateExpression sampleFields =
        .ok (specUpdateExpr ["a", "b", "a"], setAll [] sampleFields) ∧
      (keysOf (setAll [] sampleFields)).Nodup ∧
      (∀ k, (lookupObj (setAll [] sampleFields) k).isSome ↔
        ∃ n ∈ (["a", "b", "a"] : List String), k = ":" ++ n) ∧
      ∀ n, lookupObj (setAll [] sampleFields) (":" ++ n) =
        lastAssign sampleFields n) :=
  ⟨by simp [sampleFields], rfl,
    claim_C1 sampleFields ["a", "b", "a"] (by simp [sampleFields]) rfl⟩

/-- The condition expression of every successfully built update request:
the base existence predicate, comma-joined with the extra condition when
one of positive length was supplied. -/
theorem updateRequest_cond (itemKey : JVal) (tableName : String)
    (updateParams : List UpdateField) (extra : String) (req : UpdateRequest)
    (h : updateItemRequest itemKey tableName updateParams extra = .ok req) :
    req.ConditionExpression =
      (if 0 < extra.length then requireItemExistsExpression ++ ", " ++ extra
        else requireItemExistsExpression) := by
  simp only [updateItemRequest] at h
  split at h
  · exact absurd h (by simp)
  · split at h
    · exact absurd h (by simp)
    · split at h
      · exact absurd h (by simp)
      · split at h
        · exact absurd h (by simp)
        · simp only [Except.ok.injEq] at h
          rw [← h]

/-- C2: for every update call that passes validation, the request's
ConditionExpression is exactly the base predicate asserting the key
attribute exists when no extra condition is supplied, and the base followed
by a comma separator and the caller's extra condition otherwise — the base
always comes first and is never substituted. -/
theorem claim_C2 (itemKey : JVal) (tableName : String)
    (updateParams : List UpdateField) (extra : String) (req : UpdateRequest)
    (h : updateItemRequest itemKey tableName updateParams extra = .ok req) :
    req.ConditionExpression =
      (if 0 < extra.length then requireItemExistsExpression ++ ", " ++ extra
        else requireItemExistsExpression) ∧
    requireItemExistsExpression = "attribute_exists(MachineID)" :=
  ⟨updateRequest_cond itemKey tableName updateParams extra req h, rfl⟩

/-- Witness for C2: a concrete update whose request carries the base
predicate comma-joined with the caller's extra condition. -/
theorem claim_C2_witness :
    updateItemRequest sampleItem "T" [⟨some "a", JVal.num 1⟩]
        "attribute_exists(Other)" =
      .ok ⟨sampleItem, "T", [(":a", JVal.num 1)], "set a = :a",
        "attribute_exists(MachineID), attribute_exists(Other)"⟩ ∧
    ("attribute_exists(MachineID), attribute_exists(Other)" : String) =
      (if 0 < ("attribute_exists(Other)" : String).length then
        requireItemExistsExpression ++ ", " ++ "attribute_exists(Other)"
        else requireItemExistsExpression) :=
  ⟨rfl, (claim_C2 sampleItem "T" [⟨some "a", JVal.num 1⟩]
    "attribute_exists(Other)" _ rfl).1⟩

/-- C10: the existence conditions attached by put and update name the fixed
literal attribute MachineID.  For the cited putItem snapshots, every call
that reaches the request build with overwriting disallowed carries the
constant condition attribute_not_exists(MachineID); for the latest
updateItem, the built condition always starts with the constant base
attribute_exists(MachineID), whatever the supplied key, fields or extra
condition. -/
theorem claim_C10 :
    (∀ (item : JVal) (tableName : String) (req : PutRequest),
        putItemRequest_v0 item tableName false = .ok req →
        req.ConditionExpression = some "attribute_not_exists(MachineID)") ∧
    (∀ (itemKey : JVal) (tableName : String) (updateParams : List UpdateField)
        (extra : String) (req : UpdateRequest),
        updateItemRequest itemKey tableName updateParams extra = .ok req →
        ∃ rest, req.ConditionExpression = "attribute_exists(MachineID)" ++ rest) := by
  constructor
  · intro item tableName req h
    simp only [putItemRequest_v0] at h
    split at h
    · exact absurd h (by simp)
    · split at h
      · exact absurd h (by simp)
      · simp only [Except.ok.injEq] at h
        rw [← h]
        rfl
  · intro itemKey tableName updateParams extra req h
    have h2 := updateRequest_cond itemKey tableName updateParams extra req h
    by_cases he : 0 < extra.length
    · rw [if_pos he] at h2
      exact ⟨", " ++ extra, by rw [h2, requireItemExistsExpression, strAppendAssoc]⟩
    · rw [if_neg he] at h2
      exact ⟨"", by rw [h2, requireItemExistsExpression, strAppendNil]⟩

/-- Witness for C10: the earlier put snapshot's request at a concrete item,
and the latest update request at a concrete key, both naming MachineID. -/
theorem claim_C10_witness :
    putItemRequest_v0 sampleItem "Machines" false =
      .ok ⟨"Machines", sampleItem, some "attribute_not_exists(MachineID)"⟩ ∧
    (⟨"Machines", sampleItem, some "attribute_not_exists(MachineID)"⟩ :
        PutRequest).ConditionExpression = some "attribute_not_exists(MachineID)" ∧
    ∃ rest,
      (⟨sampleItem, "T", [(":a", JVal.num 1)], "set a = :a",
          "attribute_exists(MachineID)"⟩ :
        UpdateRequest).ConditionExpression = "attribute_exists(MachineID)" ++ rest :=
  ⟨rfl,
    claim_C10.1 sampleItem "Machines" _ rfl,
    claim_C10.2 sampleItem "T" [⟨some "a", JVal.num 1⟩] "" _ rfl⟩

/-- C5: for every update call that passes validation, a store error with
code ConditionalCheckFailedException is classified
DBError.ConditionalCheckFailedException and any other store error is
classified DBError; in particular, against the store model for a
non-existent key the update always rejects with
DBError.ConditionalCheckFailedException, whatever the caller's extra
condition. -/
theorem claim_C5 (itemKey : JVal) (tableName : String)
    (updateParams : List UpdateField) (extra : String) (req : UpdateRequest)
    (h : updateItemRequest itemKey tableName updateParams extra = .ok req) :
    (∀ (client : UpdateRequest → StoreOutcome JVal) (e : StoreErr),
        client req = .err e →
        settleCode (updateItem itemKey tableName updateParams extra client).1 =
          some (if e.code = some "ConditionalCheckFailedException" then
            "DBError.ConditionalCheckFailedException" else "DBError")) ∧
    settleCode (updateItem itemKey tableName updateParams extra absentKeyClient).1 =
      some "DBError.ConditionalCheckFailedException" := by
  constructor
  · intro client e hce
    simp only [updateItem, h, hce]
    by_cases hc : e.code = some "ConditionalCheckFailedException"
    · rw [if_pos hc, if_pos hc]
      rfl
    · rw [if_neg hc, if_neg hc]
      rfl
  · simp only [updateItem, h, absentKeyClient]
    rfl

/-- Witness for C5: against the absent-key store model, a concrete valid
update rejects with the refined conditional-check code. -/
theorem claim_C5_witness :
    updateItemRequest sampleItem "T" [⟨some "a", JVal.num 1⟩] "" =
      .ok ⟨sampleItem, "T", [(":a", JVal.num 1)], "set a = :a",
        "attribute_exists(MachineID)"⟩ ∧
    settleCode (updateItem sampleItem "T" [⟨some "a", JVal.num 1⟩] ""
        absentKeyClient).1 =
      some "DBError.ConditionalCheckFailedException" :=
  ⟨rfl, (claim_C5 sampleItem "T" [⟨some "a", JVal.num 1⟩] "" _ rfl).2⟩

/-- C6: for every get call that passes validation, a store success resolves
the call with the raw response — never a rejection — and in particular a
success carrying no Item resolves with a payload whose Item is absent,
indicating the key was not found; only a store error rejects, and it is
classified DBError. -/
theorem claim_C6 (itemKey : JVal) (tableName : String) (req : GetRequest)
    (client : GetRequest → StoreOutcome GetResponse)
    (h : getItemRequest itemKey tableName = .ok req) :
    (∀ d, client req = .ok d →
      getItem itemKey tableName client = (.resolved d, 1)) ∧
    (client req = .ok ⟨none⟩ →
      getItem itemKey tableName client = (.resolved ⟨none⟩, 1) ∧
        (GetResponse.mk none).Item = none) ∧
    (∀ e, client req = .err e →
      getItem itemKey tableName client =
        (.rejected ⟨"Get failed on dynamoDB", some "DBError", some (.storeErr e),
          some (CallContext.get itemKey (JVal.str tableName))⟩, 1)) := by
  refine ⟨?_, ?_, ?_⟩
  · intro d hd
    simp only [getItem, h, hd]
  · intro hd
    exact ⟨by simp only [getItem, h, hd], rfl⟩
  · intro e he
    simp only [getItem, h, he]

/-- Witness for C6: a concrete get against a store with no matching item
resolves with an absent Item. -/
theorem claim_C6_witness :
    getItemRequest (JVal.obj [("HashID", JVal.str "4666fsffr")]) "SomeTable" =
      .ok ⟨JVal.obj [("HashID", JVal.str "4666fsffr")], "SomeTable"⟩ ∧
    (getItem (JVal.obj [("HashID", JVal.str "4666fsffr")]) "SomeTable"
        emptyGetClient = (.resolved ⟨none⟩, 1) ∧
      (GetResponse.mk none).Item = none) :=
  ⟨rfl, (claim_C6 (JVal.obj [("HashID", JVal.str "4666fsffr")]) "SomeTable"
    _ emptyGetClient rfl).2.1 rfl⟩

/-- C3, evaluated at the failing input: the latest putItem with overwriting
disallowed attaches the malformed condition literal of its source line, not
a predicate over the item's key attribute MachineID as the earlier
snapshots and the claim say; the classification parts of the claim do hold:
a conditional-check-failed store error settles the call as ItemExists, and
with overwriting allowed no condition is attached. -/
theorem claim_C3 :
    putItemRequest sampleItem "Machines" false =
      .ok ⟨"Machines", sampleItem, some putConditionLatest⟩ ∧
    putConditionLatest ≠ "attribute_not_exists(MachineID)" ∧
    settleCode (putItem sampleItem "Machines" false ccfPutClient).1 =
      some "ItemExists" ∧
    putItemRequest sampleItem "Machines" true =
      .ok ⟨"Machines", sampleItem, none⟩ ∧
    settleCode (putItem sampleItem "Machines" true okPutClient).1 = none := by
  refine ⟨rfl, ?_, rfl, rfl, rfl⟩
  decide

/-- C7, evaluated at the failing input: calling the region setter with the
empty region identifier is not a no-op — the test regionName.length >= 0
holds for every string, so the configured region becomes the empty string,
the diagnostic branch does not run, and the previously configured default
is not retained. -/
theorem claim_C7 :
    setAWSRegion defaultRegion "" = ⟨"", false⟩ ∧
    ("" : String) ≠ defaultRegion := by
  refine ⟨rfl, ?_⟩
  decide

/-- Counterexample to C8 as stated: scan's rejection object carries no
errorCode — in particular not NotImplemented — and no call context. -/
theorem claim_C8_counterexample :
    settleCode (scanOp).1 ≠ some "NotImplemented" ∧
    settleCalledWith (scanOp).1 = none := by
  refine ⟨?_, rfl⟩
  decide

/-- C8 as amended: scan performs zero store-client invocations and rejects
with an object carrying only the message Not implemented — no error code,
no DBError payload and no call context. -/
theorem claim_C8 :
    scanOp = (Settle.rejected ⟨"Not implemented", none, none, none⟩, 0) := rfl

/-- C9: the non-emptiness validation only rejects values with a numeric
length property.  An empty plain object has undefined length, so it passes
the length test of getItem and putItem, the store client is invoked exactly
once, and no InvalidData outcome arises. -/
theorem claim_C9 (tableName : String) (overwrite : Bool)
    (pclient : PutRequest → StoreOutcome JVal)
    (gclient : GetRequest → StoreOutcome GetResponse)
    (htn : 0 < tableName.length) :
    jsLength (JVal.obj []) = none ∧
    lengthLE0 (JVal.obj []) = false ∧
    (putItem (JVal.obj []) tableName overwrite pclient).2 = 1 ∧
    (getItem (JVal.obj []) tableName gclient).2 = 1 ∧
    settleCode (putItem (JVal.obj []) tableName overwrite pclient).1 ≠
      some "InvalidData" ∧
    settleCode (getItem (JVal.obj []) tableName gclient).1 ≠
      some "InvalidData" := by
  have h0 : ¬ tableName.length ≤ 0 := by omega
  have hreqp : putItemRequest (JVal.obj []) tableName overwrite =
      .ok ⟨tableName, JVal.obj [],
        if !overwrite then some putConditionLatest else none⟩ := by
    simp only [putItemRequest]
    rw [if_neg (by decide : ¬ lengthLE0 (JVal.obj []) = true), if_neg h0]
  have hreqg : getItemRequest (JVal.obj []) tableName =
      .ok ⟨JVal.obj [], tableName⟩ := by
    simp only [getItemRequest]
    rw [if_neg (by decide : ¬ lengthLE0 (JVal.obj []) = true), if_neg h0]
  refine ⟨rfl, rfl, ?_, ?_, ?_, ?_⟩
  · simp only [putItem, hreqp]
    cases pclient ⟨tableName, JVal.obj [],
        if !overwrite then some putConditionLatest else none⟩ with
    | err e =>
        by_cases hc : e.code = some "ConditionalCheckFailedException" <;>
          simp [hc]
    | ok res => rfl
  · simp only [getItem, hreqg]
    cases gclient ⟨JVal.obj [], tableName⟩ with
    | err e => rfl
    | ok d => rfl
  · simp only [putItem, hreqp]
    cases pclient ⟨tableName, JVal.obj [],
        if !overwrite then some putConditionLatest else none⟩ with
    | err e =>
        by_cases hc : e.code = some "ConditionalCheckFailedException" <;>
          simp [settleCode, hc]
    | ok res => simp [settleCode]
  · simp only [getItem, hreqg]
    cases gclient ⟨JVal.obj [], tableName⟩ with
    | err e => simp [settleCode]
    | ok d => simp [settleCode]

/-- Witness for C9: the empty object passes validation of both cited
operations against concrete clients. -/
theorem claim_C9_witness :
    0 < ("SomeTable" : String).length ∧
    (jsLength (JVal.obj []) = none ∧
      lengthLE0 (JVal.obj []) = false ∧
      (putItem (JVal.obj []) "SomeTable" false okPutClient).2 = 1 ∧
      (getItem (JVal.obj []) "SomeTable" emptyGetClient).2 = 1 ∧
      settleCode (putItem (JVal.obj []) "SomeTable" false okPutClient).1 ≠
        some "InvalidData" ∧
      settleCode (getItem (JVal.obj []) "SomeTable" emptyGetClient).1 ≠
        some "InvalidData") :=
  ⟨by decide, claim_C9 "SomeTable" false okPutClient emptyGetClient (by decide)⟩

/-- Counterexample to C4 as stated: put called with an empty item rejects
before any store call, but the rejection object carries no code property at
all — in particular not InvalidData. -/
theorem claim_C4_counterexample :
    settleCode (putItem (JVal.str "") "SomeTable" false okPutClient).1 = none ∧
    settleCode (putItem (JVal.str "") "SomeTable" false okPutClient).1 ≠
      some "InvalidData" ∧
    (putItem (JVal.str "") "SomeTable" false okPutClient).2 = 0 := by
  refine ⟨rfl, ?_, rfl⟩
  decide

/-- C4 as amended: every operation called with an empty mandatory argument
rejects before any store-client invocation — zero client calls — with a
rejection object that echoes the call context but carries no error code
(the InvalidData code appears only on update's undefined-fieldName
rejection, which is not an empty-argument case). -/
theorem claim_C4 :
    (∀ (item : JVal) (tableName : String) (overwrite : Bool)
        (client : PutRequest → StoreOutcome JVal),
        lengthLE0 item = true ∨ tableName.length = 0 →
        ∃ r, putItem item tableName overwrite client = (.rejected r, 0) ∧
          r.code = none ∧
          r.calledWith = some (CallContext.put item (JVal.str tableName) overwrite)) ∧
    (∀ (itemKey : JVal) (tableName : String) (updateParams : List UpdateField)
        (extra : String) (client : UpdateRequest → StoreOutcome JVal),
        lengthLE0 itemKey = true ∨ updateParams = [] ∨ tableName.length = 0 →
        ∃ r, updateItem itemKey tableName updateParams extra client =
            (.rejected r, 0) ∧
          r.code = none ∧
          r.calledWith = some (CallContext.update updateParams (JVal.str tableName)
            itemKey extra)) ∧
    (∀ (itemKey : JVal) (tableName : String) (deleteCondition : String)
        (deleteParameters : JVal) (client : DeleteRequest → StoreOutcome JVal),
        lengthLE0 itemKey = true ∨ tableName.length = 0 ∨
          deleteCondition.length = 0 ∨ lengthLE0 deleteParameters = true →
        ∃ r, deleteItem itemKey tableName deleteCondition deleteParameters client =
            (.rejected r, 0) ∧
          r.code = none ∧
          r.calledWith = some (CallContext.del itemKey (JVal.str tableName)
            deleteCondition deleteParameters)) ∧
    (∀ (itemKey : JVal) (tableName : String)
        (client : GetRequest → StoreOutcome GetResponse),
        lengthLE0 itemKey = true ∨ tableName.length = 0 →
        ∃ r, getItem itemKey tableName client = (.rejected r, 0) ∧
          r.code = none ∧
          r.calledWith = some (CallContext.get itemKey (JVal.str tableName))) ∧
    (∀ (conditionExpression : String) (names vals : JVal) (tableName : String)
        (indexName : String) (client : QueryRequest → StoreOutcome JVal),
        conditionExpression.length = 0 ∨ tableName.length = 0 ∨
          lengthLE0 names = true ∨ lengthLE0 vals = true →
        ∃ r, queryOp conditionExpression names vals tableName indexName client =
            (.rejected r, 0) ∧
          r.code = none ∧
          r.calledWith = some (CallContext.query conditionExpression
            (JVal.str tableName) names vals)) := by
  refine ⟨?_, ?_, ?_, ?_, ?_⟩
  · intro item tableName overwrite client h
    by_cases h1 : lengthLE0 item = true
    · exact ⟨⟨"No item supplied", none, none,
        some (CallContext.put item (JVal.str tableName) overwrite)⟩,
        by simp [putItem, putItemRequest, h1], rfl, rfl⟩
    · have h2 : tableName.length ≤ 0 := by
        rcases h with ha | hb
        · exact absurd ha h1
        · omega
      exact ⟨⟨"No tableName supplied", none, none,
        some (CallContext.put item (JVal.str tableName) overwrite)⟩,
        by simp [putItem, putItemRequest, h1, h2], rfl, rfl⟩
  · intro itemKey tableName updateParams extra client h
    by_cases h1 : (isFalsy itemKey || lengthLE0 itemKey) = true
    · exact ⟨⟨"no Item Key supplied", none, none,
        some (CallContext.update updateParams (JVal.str tableName) itemKey extra)⟩,
        by simp [updateItem, updateItemRequest, h1], rfl, rfl⟩
    · have h1b : ¬ lengthLE0 itemKey = true := fun hh =>
        h1 (by rw [hh, Bool.or_true])
      by_cases h2 : updateParams.length ≤ 0
      · exact ⟨⟨"No updateParams supplied", none, none,
          some (CallContext.update updateParams (JVal.str tableName) itemKey extra)⟩,
          by simp [updateItem, updateItemRequest, h1, h2], rfl, rfl⟩
      · have h3 : tableName.length ≤ 0 := by
          rcases h with ha | hb | hc
          · exact absurd ha h1b
          · exact absurd (by rw [hb]; exact Nat.le_refl 0) h2
          · omega
        exact ⟨⟨"No tableName supplied", none, none,
          some (CallContext.update updateParams (JVal.str tableName) itemKey extra)⟩,
          by simp [updateItem, updateItemRequest, h1, h2, h3], rfl, rfl⟩
  · intro itemKey tableName deleteCondition deleteParameters client h
    by_cases h1 : lengthLE0 itemKey = true
    · exact ⟨⟨"no Item Key supplied", none, none,
        some (CallContext.del itemKey (JVal.str tableName) deleteCondition
          deleteParameters)⟩,
        by simp [deleteItem, deleteItemRequest, h1], rfl, rfl⟩
    · by_cases h2 : tableName.length ≤ 0
      · exact ⟨⟨"No tableName supplied", none, none,
          some (CallContext.del itemKey (JVal.str tableName) deleteCondition
            deleteParameters)⟩,
          by simp [deleteItem, deleteItemRequest, h1, h2], rfl, rfl⟩
      · by_cases h3 : deleteCondition.length ≤ 0
        · exact ⟨⟨"No delete condition supplied", none, none,
            some (CallContext.del itemKey (JVal.str tableName) deleteCondition
              deleteParameters)⟩,
            by simp [deleteItem, deleteItemRequest, h1, h2, h3], rfl, rfl⟩
        · have h4 : lengthLE0 deleteParameters = true := by
            rcases h with ha | hb | hc | hd
            · exact absurd ha h1
            · exact absurd (by omega) h2
            · exact absurd (by omega) h3
            · exact hd
          exact ⟨⟨"No delete condition supplied", none, none,
            some (CallContext.del itemKey (JVal.str tableName) deleteCondition
              deleteParameters)⟩,
            by simp [deleteItem, deleteItemRequest, h1, h2, h3, h4], rfl, rfl⟩
  · intro itemKey tableName client h
    by_cases h1 : lengthLE0 itemKey = true
    · exact ⟨⟨"no Item Key supplied", none, none,
        some (CallContext.get itemKey (JVal.str tableName))⟩,
        by simp [getItem, getItemRequest, h1], rfl, rfl⟩
    · have h2 : tableName.length ≤ 0 := by
        rcases h with ha | hb
        · exact absurd ha h1
        · omega
      exact ⟨⟨"No tableName supplied", none, none,
        some (CallContext.get itemKey (JVal.str tableName))⟩,
        by simp [getItem, getItemRequest, h1, h2], rfl, rfl⟩
  · intro conditionExpression names vals tableName indexName client h
    by_cases h1 : conditionExpression.length ≤ 0
    · exact ⟨⟨"No conditionExpression supplied", none, none,
        some (CallContext.query conditionExpression (JVal.str tableName) names vals)⟩,
        by simp [queryOp, queryRequest, h1], rfl, rfl⟩
    · by_cases h2 : tableName.length ≤ 0
      · exact ⟨⟨"No tableName supplied", none, none,
          some (CallContext.query conditionExpression (JVal.str tableName) names vals)⟩,
          by simp [queryOp, queryRequest, h1, h2], rfl, rfl⟩
      · by_cases h3 : lengthLE0 names = true
        · exact ⟨⟨"No expressionAttributeNames supplied", none, none,
            some (CallContext.query conditionExpression (JVal.str tableName) names vals)⟩,
            by simp [queryOp, queryRequest, h1, h2, h3], rfl, rfl⟩
        · have h4 : lengthLE0 vals = true := by
            rcases h with ha | hb | hc | hd
            · exact absurd (by omega) h1
            · exact absurd (by omega) h2
            · exact absurd hc h3
            · exact hd
          exact ⟨⟨"No expressionAttributeValues supplied", none, none,
            some (CallContext.query conditionExpression (JVal.str tableName) names vals)⟩,
            by simp [queryOp, queryRequest, h1, h2, h3, h4], rfl, rfl⟩

/-- Witness for C4 at the put conjunct: an empty item string. -/
theorem claim_C4_witness :
    (lengthLE0 (JVal.str "") = true ∨ ("SomeTable" : String).length = 0) ∧
    ∃ r, putItem (JVal.str "") "SomeTable" false okPutClient = (.rejected r, 0) ∧
      r.code = none ∧
      r.calledWith = some (CallContext.put (JVal.str "") (JVal.str "SomeTable")
        false) :=
  ⟨Or.inl rfl,
    claim_C4.1 (JVal.str "") "SomeTable" false okPutClient (Or.inl rfl)⟩

end DDB
